import Mathlib

/-!
Verification of the FactoryMind production-planning core against its
natural-language specification.  The Python sources are shallowly embedded:
machine integers and floats become rationals (`ℚ`), Python `dict`s become
association lists looked up by their first matching key, `math.ceil` becomes
`Int.ceil` on `ℚ`, and fallible constructors return `Option`.
-/

namespace FactoryMind

/-- Units of measure (`src/entities/units.py`, enum `Unit`). -/
inductive Unit' where
  | GRAM
  | KILOGRAM
  | LITER
  | MILLILITER
  | PIECE
  | SECONDS
  | KILOWATT
  | EURO
  | PERCENT
  | HOUR
deriving DecidableEq, Repr

/-- Machine power states (`src/entities/power_profile.py`, enum `MachinePowerProfile`). -/
inductive MachinePowerProfile where
  | IDLE
  | LOADING
  | PRODUCE
deriving DecidableEq, Repr

/-- A Python dictionary key as used by the power-profile dictionaries: either a
`MachinePowerProfile` enum member or a plain string.  Python enum members never
compare equal to strings, which the constructor distinction captures. -/
inductive PyKey where
  | enumK : MachinePowerProfile → PyKey
  | strK : String → PyKey
deriving DecidableEq, Repr

/-- Python `dict.get(key, default)` over an association list: the value of the
first entry whose key equals `k`, else the default. -/
def dictGet (l : List (PyKey × ℚ)) (k : PyKey) (dflt : ℚ) : ℚ :=
  match l.find? (fun p => decide (p.1 = k)) with
  | some p => p.2
  | none => dflt

/-- `src/entities/raw_material.py`, class `RawMaterial`. -/
structure RawMaterial where
  name : String
  unit : Unit'
  unit_cost : ℚ
  stock_quantity : ℚ
  prep_time : ℚ
deriving DecidableEq, Repr

/-- `src/entities/recipe.py`, class `Recipe`: ingredients map each raw material
to its quantity per recipe run. -/
structure Recipe where
  name : String
  ingredients : List (RawMaterial × ℚ)
  output_quantity : ℚ
  output_unit : Unit'
deriving DecidableEq, Repr

/-- `src/entities/machine.py`, class `LoadingRate`. -/
structure LoadingRate where
  rate : ℚ
  quant : Unit'
  over_quant : Unit'
deriving DecidableEq, Repr

/-- `src/entities/machine.py`, class `MachineLoadingRates`. -/
structure MachineLoadingRates where
  by_unit : List (Unit' × LoadingRate) := []
  by_material : List (String × LoadingRate) := []
deriving DecidableEq, Repr

/-- `src/entities/machine.py`, class `MachineStorage`. -/
structure MachineStorage where
  by_unit : List (Unit' × ℚ) := []
  by_material : List (String × ℚ) := []
deriving DecidableEq, Repr

/-- `src/entities/machine.py`, class `PowerProfile`: a dictionary from power
state to a dimensionless factor.  The keys inserted by `__init__` are always
enum members, never strings. -/
structure PowerProfile where
  items : List (PyKey × ℚ)
deriving DecidableEq, Repr

/-- The members of `MachinePowerProfile` in declaration order. -/
def allProfiles : List MachinePowerProfile :=
  [MachinePowerProfile.IDLE, MachinePowerProfile.LOADING, MachinePowerProfile.PRODUCE]

/-- `PowerProfile.__init__`: start from the given profile (or the all-ones
default) and add factor `1.0` for every power state not already present. -/
def PowerProfile.init (profile : Option (List (MachinePowerProfile × ℚ))) : PowerProfile :=
  let base : List (PyKey × ℚ) :=
    match profile with
    | none =>
        [(PyKey.enumK MachinePowerProfile.IDLE, 1),
         (PyKey.enumK MachinePowerProfile.LOADING, 1),
         (PyKey.enumK MachinePowerProfile.PRODUCE, 1)]
    | some p => p.map (fun q => (PyKey.enumK q.1, q.2))
  ⟨base ++ allProfiles.filterMap (fun conf =>
      if (base.find? (fun p => decide (p.1 = PyKey.enumK conf))).isSome then none
      else some (PyKey.enumK conf, 1))⟩

/-- The machine-recipe setting record as consumed by the cost model
(`evaluate_recipe_time` and `ProductionTaskCandidate`) and declared by
`MachineRecipeSettingSchema` in `src/schemas.py`: per-unit processing time,
setup time, per-unload-event time, yield rate, batch capacity, energy factor. -/
structure MachineRecipeSetting where
  recipe : Recipe
  time : ℚ
  setup_time : ℚ
  unload_time : ℚ
  yield_rate : ℚ
  capacity : ℚ
  energy_factor : ℚ := 1
deriving DecidableEq, Repr

/-- `src/entities/machine.py`, class `Machine`.  The field
`max_working_hours_per_day` is read by `ProductionTaskCandidate.__init__` and
produced by the data generator (`factory_data_generator.py`, range 8–24); the
entity's own constructor never assigns it, so it is carried here as a plain
data field. -/
structure Machine where
  name : String
  hourly_cost : ℚ := 0
  nominal_power_kw : ℚ
  base_efficiency : ℚ := 1
  shifts_per_day : ℤ := 1
  hours_per_shift : ℚ := 8
  power_profile : PowerProfile := PowerProfile.init none
  storage : MachineStorage := {}
  loading_rates : MachineLoadingRates := {}
  settings : List MachineRecipeSetting := []
  max_working_hours_per_day : ℚ := 24
deriving DecidableEq, Repr

/-- `Machine.loading_time` (`src/entities/machine.py`): loading time in seconds
for a quantity of material.  Priority: rate by material name, else rate by the
material's unit, else a default rate of `0.0`; the result is `quantity * rate`. -/
def Machine.loading_time (m : Machine) (quantity : ℚ) (material : RawMaterial) : ℚ :=
  let rate : ℚ :=
    match m.loading_rates.by_material.find? (fun p => decide (p.1 = material.name)) with
    | some p => p.2.rate
    | none =>
      match m.loading_rates.by_unit.find? (fun p => decide (p.1 = material.unit)) with
      | some p => p.2.rate
      | none => 0
  quantity * rate

/-- Modelled from the spec: `Machine.get_loading_rate` is called by the cost
model (`time_evaluator.py`, `production_task_candidate.py`) but its definition
is absent from the sources.  Spec section 4.1 step 4 prescribes a two-tier
lookup — exact material name first, then the material's unit of measure — and a
default rate of `1.0` unit/second when both are absent. -/
def Machine.get_loading_rate (m : Machine) (material : RawMaterial) : ℚ :=
  match m.loading_rates.by_material.find? (fun p => decide (p.1 = material.name)) with
  | some p => p.2.rate
  | none =>
    match m.loading_rates.by_unit.find? (fun p => decide (p.1 = material.unit)) with
    | some p => p.2.rate
    | none => 1

/-- Modelled from the spec: `Machine.get_setting_for_recipe_from_name` is
called by the evaluator, the candidate constructor and the planner but its
definition is absent from the sources.  Spec section 3 says the machine's
settings list is queryable by recipe name; callers treat a falsy result as
"recipe unsupported". -/
def Machine.get_setting_for_recipe_from_name (m : Machine) (recipeName : String) :
    Option MachineRecipeSetting :=
  m.settings.find? (fun s => decide (s.recipe.name = recipeName))

/-- Python `math.ceil` on a rational, in computable form (`Rat.ceil`); proved
equal to the mathematical ceiling below (`pyCeil_eq_ceil`). -/
def pyCeil (q : ℚ) : ℤ := q.ceil

/-- `evaluate_recipe_time` (`src/utils/time_evaluator.py`): total estimated
time in seconds for producing `amount_needed` of the named recipe on the given
machine.  Returns `none` when the machine has no setting for the recipe (the
Python raises). -/
def evaluate_recipe_time (machine : Machine) (recipeName : String) (amount_needed : ℚ) :
    Option ℚ :=
  match machine.get_setting_for_recipe_from_name recipeName with
  | none => none
  | some recipe_setting =>
    let recipe := recipe_setting.recipe
    let time := recipe_setting.setup_time
    let amount1 := amount_needed / recipe_setting.yield_rate
    let amount2 : ℚ :=
      if recipe.output_unit = Unit'.PIECE then ((pyCeil amount1 : ℤ) : ℚ) else amount1
    let how_many_times_recipe : ℤ := pyCeil (amount2 / recipe.output_quantity)
    let time := time + (how_many_times_recipe : ℚ) * recipe_setting.time
    let loading_time :=
      (recipe.ingredients.map (fun p =>
        (p.2 * (how_many_times_recipe : ℚ)) / machine.get_loading_rate p.1)).sum
    let time := time + loading_time
    let unloading_times : ℤ := pyCeil (amount2 / recipe_setting.capacity)
    let time := time + (unloading_times : ℚ) * recipe_setting.unload_time
    some time

/-! ### The Cookie scenario (spec section 8; `src/tests/test_time_evaluator.py`) -/

/-- Test material Flour: 1 €/kg, 1000 kg stock. -/
def flour : RawMaterial :=
  { name := "Flour", unit := Unit'.KILOGRAM, unit_cost := 1, stock_quantity := 1000, prep_time := 0 }

/-- Test material Sugar: 2 €/kg, 1000 kg stock. -/
def sugar : RawMaterial :=
  { name := "Sugar", unit := Unit'.KILOGRAM, unit_cost := 2, stock_quantity := 1000, prep_time := 0 }

/-- Test recipe Cookie: 100 pieces per run from 50 kg Flour and 20 kg Sugar. -/
def cookie : Recipe :=
  { name := "Cookie", ingredients := [(flour, 50), (sugar, 20)],
    output_quantity := 100, output_unit := Unit'.PIECE }

/-- Cookie setting: 1 s unit time, 60 s setup, 30 s unload, yield 1.0,
capacity 100. -/
def cookieSetting : MachineRecipeSetting :=
  { recipe := cookie, time := 1, setup_time := 60, unload_time := 30,
    yield_rate := 1, capacity := 100 }

/-- Test machine Oven: 10 kW, generic loading rate 10 kg/s, supports Cookie. -/
def oven : Machine :=
  { name := "Oven", nominal_power_kw := 10,
    loading_rates :=
      { by_unit :=
          [(Unit'.KILOGRAM,
            { rate := 10, quant := Unit'.KILOGRAM, over_quant := Unit'.SECONDS })] },
    settings := [cookieSetting] }

/-- `src/entities/production_task_candidate.py`, class `ProductionTaskCandidate`:
the computed value object for "recipe X could run on machine Y for quantity Q",
holding the derived quantities, time breakdown and energy breakdown. -/
structure ProductionTaskCandidate where
  machine : Machine
  recipe : Recipe
  requested_quantity : ℚ
  actual_quantity : ℚ
  how_many_times_recipe : ℤ
  idle_time : ℚ
  loading_time : ℚ
  producing_time : ℚ
  estimated_time : ℚ
  energy_idle : ℚ
  energy_loading : ℚ
  energy_produce : ℚ
  total_energy_consumption : ℚ
deriving DecidableEq, Repr

/-- `ProductionTaskCandidate.__init__` together with
`_evaluate_recipe_total_time`: computes actual quantity (yield division,
ceiling for discrete output), batch repetitions, the idle/loading/producing
split, the estimated time with non-working-hours adjustment, and the per-state
energy figures.  Returns `none` when the machine has no setting for the recipe
(the Python raises `ValueError`). -/
def ProductionTaskCandidate.init (machine : Machine) (recipe : Recipe)
    (requested_quantity : ℚ) : Option ProductionTaskCandidate :=
  match machine.get_setting_for_recipe_from_name recipe.name with
  | none => none
  | some recipe_settings =>
    let actual0 := requested_quantity / recipe_settings.yield_rate
    let actual_quantity : ℚ :=
      if recipe.output_unit = Unit'.PIECE then ((pyCeil actual0 : ℤ) : ℚ) else actual0
    let how_many_times_recipe : ℤ := pyCeil (actual_quantity / recipe.output_quantity)
    let idle_time0 := recipe_settings.setup_time
    let producing_time := (how_many_times_recipe : ℚ) * recipe_settings.time
    let loading_time :=
      (recipe.ingredients.map (fun p =>
        (p.2 * (how_many_times_recipe : ℚ)) / machine.get_loading_rate p.1)).sum
    let unloading_times : ℤ := pyCeil (actual_quantity / recipe_settings.capacity)
    let idle_time := idle_time0 + (unloading_times : ℚ) * recipe_settings.unload_time
    let base_estimated_time := idle_time + loading_time + producing_time
    let work_hours := base_estimated_time / 3600
    let days_needed : ℤ := pyCeil (work_hours / machine.max_working_hours_per_day)
    let non_working_hours_per_day := 24 - machine.max_working_hours_per_day
    let total_non_working_hours := ((days_needed : ℚ) - 1) * non_working_hours_per_day
    let estimated_time := base_estimated_time + total_non_working_hours * 3600
    let energy_idle := idle_time * machine.nominal_power_kw *
      dictGet machine.power_profile.items (PyKey.enumK MachinePowerProfile.IDLE) 0
    let energy_loading := loading_time * machine.nominal_power_kw *
      dictGet machine.power_profile.items (PyKey.enumK MachinePowerProfile.LOADING) 0
    let energy_produce := producing_time * machine.nominal_power_kw *
      dictGet machine.power_profile.items (PyKey.enumK MachinePowerProfile.PRODUCE) 0
    some
      { machine := machine
        recipe := recipe
        requested_quantity := requested_quantity
        actual_quantity := actual_quantity
        how_many_times_recipe := how_many_times_recipe
        idle_time := idle_time
        loading_time := loading_time
        producing_time := producing_time
        estimated_time := estimated_time
        energy_idle := energy_idle
        energy_loading := energy_loading
        energy_produce := energy_produce
        total_energy_consumption := energy_idle + energy_loading + energy_produce }

/-- `Machine.energy_use` (`src/entities/machine.py`): total energy in kWh from
a dictionary of state durations keyed by strings; the per-state factor is
`self.power_profile.items.get(state, 0)` where `state` is the string key. -/
def Machine.energy_use (m : Machine) (state_durations : List (String × ℚ)) : ℚ :=
  (state_durations.map (fun p =>
    m.nominal_power_kw * dictGet m.power_profile.items (PyKey.strK p.1) 0 * (p.2 / 3600))).sum

/-! ### Planner (`src/planner/production_planner.py`) -/

/-- `ProductionPlanner._create_candidates`: for every (recipe, quantity) pair
of the grouped demand map, construct one candidate per machine that supports
the recipe.  The second component models the planner's error log: the names of
recipes for which `machines_that_can_produce == 0`
(`log.error("No machines found to produce ...")`). -/
def create_candidates : List (Recipe × ℚ) → List Machine →
    List ProductionTaskCandidate × List String
  | [], _ => ([], [])
  | (recipe, quantity) :: rest, machines =>
    let cs := machines.filterMap (fun m => ProductionTaskCandidate.init m recipe quantity)
    let tail := create_candidates rest machines
    (cs ++ tail.1, (if cs.length = 0 then [recipe.name] else []) ++ tail.2)

/-- Python `dict` key order: the distinct elements of a list, keeping the
first occurrence of each. -/
def pyDictKeys : List String → List String
  | [] => []
  | x :: xs => x :: (pyDictKeys xs).filter (fun y => decide (y ≠ x))

/-- The distinct recipe names of a candidate list, in first-occurrence order
(the key order of the Python `defaultdict` built in `optimize_assignment`). -/
def recipeNamesOf (cs : List ProductionTaskCandidate) : List String :=
  pyDictKeys (cs.map (fun c => c.recipe.name))

/-- The distinct machine names of a candidate list (the set `machines` built in
`optimize_assignment`). -/
def machineNamesOf (cs : List ProductionTaskCandidate) : List String :=
  pyDictKeys (cs.map (fun c => c.machine.name))

/-- `candidates_by_recipe`: candidates grouped by recipe name, keys in
first-occurrence order, each group in original order. -/
def groupByRecipe (cs : List ProductionTaskCandidate) :
    List (String × List ProductionTaskCandidate) :=
  (recipeNamesOf cs).map (fun rn => (rn, cs.filter (fun c => decide (c.recipe.name = rn))))

/-- Python `min(candidates, key=lambda c: c.estimated_time)`: the first
candidate attaining the minimal estimated time (`none` on the empty list,
where Python raises). -/
def minByTime : List ProductionTaskCandidate → Option ProductionTaskCandidate
  | [] => none
  | c :: rest =>
    some (rest.foldl (fun acc d => if d.estimated_time < acc.estimated_time then d else acc) c)

/-- The result-extraction loop of `optimize_assignment`: for each recipe group,
select the first candidate whose binary variable the solver set to 1 (`break`
after the first hit). -/
def extractSelected (byRecipe : List (String × List ProductionTaskCandidate))
    (sol : String → String → Bool) : List ProductionTaskCandidate :=
  byRecipe.filterMap (fun p => (p.2.filter (fun c => sol p.1 c.machine.name)).head?)

/-- `ProductionPlanner.optimize_assignment`.  The external MILP backend (pulp)
is abstracted as `sol`: `none` models a non-`Optimal` solver status, and
`some x` models an optimal solve whose binary variable for (recipe name,
machine name) has value 1 exactly when `x` returns `true`.  An empty candidate
list returns `[]` before the solver is consulted; a failed solve returns the
per-recipe greedy minima; an optimal solve returns the extracted selection. -/
def optimize_assignment (candidates : List ProductionTaskCandidate)
    (sol : Option (String → String → Bool)) : List ProductionTaskCandidate :=
  if candidates.isEmpty then []
  else
    match sol with
    | none => (groupByRecipe candidates).filterMap (fun p => minByTime p.2)
    | some x => extractSelected (groupByRecipe candidates) x

/-- The power-profile factor a constructed candidate actually reads:
`machine.power_profile.items[MachinePowerProfile.<state>]` (present for every
state after `PowerProfile.__init__`, so the 0 default is never taken there). -/
def profileFactor (m : Machine) (s : MachinePowerProfile) : ℚ :=
  dictGet m.power_profile.items (PyKey.enumK s) 0

/-! ### Concrete fixtures used by scenario evaluations and witnesses -/

/-- A machine with no configured loading rates at all. -/
def bareMill : Machine := { name := "Mill", nominal_power_kw := 5 }

/-- A machine with both a material-specific rate for Flour (7) and a generic
rate for kilograms (4), to exhibit the lookup priority. -/
def rateMill : Machine :=
  { name := "RateMill", nominal_power_kw := 5,
    loading_rates :=
      { by_unit :=
          [(Unit'.KILOGRAM, { rate := 4, quant := Unit'.KILOGRAM, over_quant := Unit'.SECONDS })],
        by_material :=
          [("Flour", { rate := 7, quant := Unit'.KILOGRAM, over_quant := Unit'.SECONDS })] } }

/-- A one-piece recipe taking 10 kg of Flour per run. -/
def slab : Recipe :=
  { name := "Slab", ingredients := [(flour, 10)], output_quantity := 1,
    output_unit := Unit'.PIECE }

/-- Slab setting: 40000 s per run, no setup, no unload time, yield 1, capacity 1. -/
def slabSetting : MachineRecipeSetting :=
  { recipe := slab, time := 40000, setup_time := 0, unload_time := 0,
    yield_rate := 1, capacity := 1 }

/-- A machine limited to 8 working hours per day, 10 kg/s generic loading. -/
def press : Machine :=
  { name := "Press", nominal_power_kw := 1,
    loading_rates :=
      { by_unit :=
          [(Unit'.KILOGRAM, { rate := 10, quant := Unit'.KILOGRAM, over_quant := Unit'.SECONDS })] },
    settings := [slabSetting], max_working_hours_per_day := 8 }

/-- The candidate the Press/Slab construction produces: base time 40001 s
(idle 0, loading 1, producing 40000) padded with one day of non-working time
(16 h) to an estimated 97601 s. -/
def slabCand : ProductionTaskCandidate :=
  { machine := press, recipe := slab, requested_quantity := 1, actual_quantity := 1,
    how_many_times_recipe := 1, idle_time := 0, loading_time := 1,
    producing_time := 40000, estimated_time := 97601, energy_idle := 0,
    energy_loading := 1, energy_produce := 40000, total_energy_consumption := 40001 }

/-- A one-piece recipe taking 10 kg of Flour per run. -/
def brick : Recipe :=
  { name := "Brick", ingredients := [(flour, 10)], output_quantity := 1,
    output_unit := Unit'.PIECE }

/-- Brick setting: 1 s per run, 3600 s setup, yield 1, capacity 1, energy
factor 5. -/
def brickSetting : MachineRecipeSetting :=
  { recipe := brick, time := 1, setup_time := 3600, unload_time := 0,
    yield_rate := 1, capacity := 1, energy_factor := 5 }

/-- A 2 kW machine whose idle power factor is 3 (loading/producing default
to 1), supporting Brick; no loading rates configured. -/
def kiln : Machine :=
  { name := "Kiln", nominal_power_kw := 2,
    power_profile := PowerProfile.init (some [(MachinePowerProfile.IDLE, 3)]),
    settings := [brickSetting] }

/-- A recipe supported by no machine in the C5 fixture. -/
def orphan : Recipe :=
  { name := "Orphan", ingredients := [(flour, 1)], output_quantity := 1,
    output_unit := Unit'.PIECE }

/-- A bare candidate record used as optimizer test data: only the recipe name,
machine name and estimated time matter to the assignment logic. -/
def mkPlainCand (m : Machine) (r : Recipe) (t : ℚ) : ProductionTaskCandidate :=
  { machine := m, recipe := r, requested_quantity := 1, actual_quantity := 1,
    how_many_times_recipe := 1, idle_time := 0, loading_time := 0,
    producing_time := t, estimated_time := t, energy_idle := 0,
    energy_loading := 0, energy_produce := 0, total_energy_consumption := 0 }

/-- Optimizer fixture machine M1. -/
def m1 : Machine := { name := "M1", nominal_power_kw := 1 }

/-- Optimizer fixture machine M2. -/
def m2 : Machine := { name := "M2", nominal_power_kw := 1 }

/-- Optimizer fixture recipe A. -/
def rA : Recipe :=
  { name := "A", ingredients := [(flour, 1)], output_quantity := 1,
    output_unit := Unit'.PIECE }

/-- Optimizer fixture recipe B. -/
def rB : Recipe :=
  { name := "B", ingredients := [(flour, 1)], output_quantity := 1,
    output_unit := Unit'.PIECE }

/-- Optimizer fixture candidate list: A on M1 (100 s), A on M2 (150 s),
B on M1 (120 s). -/
def csW : List ProductionTaskCandidate :=
  [mkPlainCand m1 rA 100, mkPlainCand m2 rA 150, mkPlainCand m1 rB 120]

/-- A solver solution for `csW`: A on M2, B on M1. -/
def solW : String → String → Bool :=
  fun rn mn => (rn == "A" && mn == "M2") || (rn == "B" && mn == "M1")

/-! ### General lemmas about the embedding -/

/-- `pyCeil` agrees with the mathematical ceiling function. -/
theorem pyCeil_eq_ceil (q : ℚ) : pyCeil q = ⌈q⌉ := by
  rw [pyCeil, Rat.ceil]
  split
  next h =>
    conv_rhs => rw [← Rat.coe_int_num_of_den_eq_one h]
    exact (Int.ceil_intCast q.num).symm
  next h =>
    have hfl : ⌊q⌋ = q.num / (q.den : ℤ) := Rat.floor_def
    have hne : ((⌊q⌋ : ℚ)) ≠ q := by
      intro he
      exact h (by rw [← he]; exact Rat.den_intCast _)
    have hlt : ((⌊q⌋ : ℚ)) < q := lt_of_le_of_ne (Int.floor_le q) hne
    have hq : ((q.num / (q.den : ℤ) : ℤ) : ℚ) = ((⌊q⌋ : ℤ) : ℚ) := by
      exact_mod_cast congrArg (fun z : ℤ => (z : ℚ)) hfl.symm
    symm
    rw [Int.ceil_eq_iff]
    constructor
    · push_cast [hq]
      linarith
    · push_cast [hq]
      linarith [Int.lt_floor_add_one q]

/-- Evaluation rule for concrete ceilings. -/
theorem ceil_eval (a : ℚ) (z : ℤ) (h1 : (z : ℚ) - 1 < a) (h2 : a ≤ (z : ℚ)) :
    ⌈a⌉ = z := Int.ceil_eq_iff.2 ⟨h1, h2⟩

/-- The ceiling of a nonnegative rational is nonnegative (as a rational). -/
theorem pyCeil_cast_nonneg {q : ℚ} (h : 0 ≤ q) : (0 : ℚ) ≤ ((pyCeil q : ℤ) : ℚ) := by
  rw [pyCeil_eq_ceil]
  exact_mod_cast Int.ceil_nonneg h

/-- A rational is at most its ceiling. -/
theorem le_pyCeil_cast (q : ℚ) : q ≤ ((pyCeil q : ℤ) : ℚ) := by
  rw [pyCeil_eq_ceil]
  exact_mod_cast Int.le_ceil q

/-- Looking up a string key in a dictionary whose keys are all enum members
yields the default. -/
theorem dictGet_strK_eq_default (l : List (PyKey × ℚ))
    (hl : ∀ p ∈ l, ∃ e, p.1 = PyKey.enumK e) (s : String) (d : ℚ) :
    dictGet l (PyKey.strK s) d = d := by
  unfold dictGet
  cases hf : l.find? (fun p => decide (p.1 = PyKey.strK s)) with
  | none => rfl
  | some p =>
    have h1 := List.find?_some hf
    obtain ⟨e, he⟩ := hl p (List.mem_of_find?_eq_some hf)
    rw [he] at h1
    simp at h1

/-- Every key that `PowerProfile.__init__` inserts is an enum member. -/
theorem powerProfile_init_keys (prof : Option (List (MachinePowerProfile × ℚ))) :
    ∀ p ∈ (PowerProfile.init prof).items, ∃ e, p.1 = PyKey.enumK e := by
  intro p hp
  simp only [PowerProfile.init, List.mem_append, List.mem_filterMap] at hp
  rcases hp with h | ⟨conf, _, hconf⟩
  · cases prof with
    | none =>
      simp only [List.mem_cons, List.not_mem_nil, or_false] at h
      rcases h with h | h | h <;> exact ⟨_, by rw [h]⟩
    | some l =>
      obtain ⟨a, _, ha⟩ := List.mem_map.1 h
      exact ⟨a.1, by rw [← ha]⟩
  · refine ⟨conf, ?_⟩
    revert hconf
    split
    · intro h
      cases h
    · intro h
      injection h with h
      rw [← h]

/-- The loading rate returned by the (spec-modelled) lookup is positive
whenever every configured rate is positive. -/
theorem get_loading_rate_pos (m : Machine) (mat : RawMaterial)
    (hu : ∀ p ∈ m.loading_rates.by_unit, 0 < p.2.rate)
    (hm : ∀ p ∈ m.loading_rates.by_material, 0 < p.2.rate) :
    0 < m.get_loading_rate mat := by
  unfold Machine.get_loading_rate
  cases h1 : m.loading_rates.by_material.find? (fun p => decide (p.1 = mat.name)) with
  | some p => exact hm p (List.mem_of_find?_eq_some h1)
  | none =>
    cases h2 : m.loading_rates.by_unit.find? (fun p => decide (p.1 = mat.unit)) with
    | some p => exact hu p (List.mem_of_find?_eq_some h2)
    | none => norm_num

/-- Candidate construction succeeds exactly when the machine has a setting for
the recipe. -/
theorem init_isSome_eq (m : Machine) (r : Recipe) (q : ℚ) :
    (ProductionTaskCandidate.init m r q).isSome =
      (m.get_setting_for_recipe_from_name r.name).isSome := by
  unfold ProductionTaskCandidate.init
  cases m.get_setting_for_recipe_from_name r.name <;> rfl

/-- Candidate construction fails when the machine has no setting for the
recipe. -/
theorem init_eq_none (m : Machine) (r : Recipe) (q : ℚ)
    (h : m.get_setting_for_recipe_from_name r.name = none) :
    ProductionTaskCandidate.init m r q = none := by
  unfold ProductionTaskCandidate.init
  rw [h]

/-- A constructed candidate carries the recipe it was constructed for. -/
theorem recipe_of_init (m : Machine) (r : Recipe) (q : ℚ) (c : ProductionTaskCandidate)
    (hc : ProductionTaskCandidate.init m r q = some c) : c.recipe = r := by
  unfold ProductionTaskCandidate.init at hc
  cases hset : m.get_setting_for_recipe_from_name r.name with
  | none => rw [hset] at hc; cases hc
  | some rs =>
    rw [hset] at hc
    simp only [Option.some.injEq] at hc
    rw [← hc]

/-- `pyDictKeys` preserves membership. -/
theorem pyDictKeys_mem (a : String) : ∀ l : List String, a ∈ pyDictKeys l ↔ a ∈ l := by
  intro l
  induction l with
  | nil => simp [pyDictKeys]
  | cons x xs ih =>
    simp only [pyDictKeys, List.mem_cons, List.mem_filter]
    constructor
    · rintro (h | ⟨h, _⟩)
      · exact Or.inl h
      · exact Or.inr (ih.1 h)
    · rintro (h | h)
      · exact Or.inl h
      · by_cases hax : a = x
        · exact Or.inl hax
        · exact Or.inr ⟨ih.2 h, by simp [hax]⟩

/-- `pyDictKeys` returns a duplicate-free list. -/
theorem pyDictKeys_nodup : ∀ l : List String, (pyDictKeys l).Nodup := by
  intro l
  induction l with
  | nil => simp [pyDictKeys]
  | cons x xs ih =>
    simp only [pyDictKeys]
    refine List.nodup_cons.2 ⟨?_, List.Nodup.filter _ ih⟩
    intro hx
    have := (List.mem_filter.1 hx).2
    simp at this

/-! ### Claim C1 -/

/-- Claim C1: for the Cookie scenario (200 pieces requested, yield 1.0, unit
time 1.0 s, setup 60 s, unload 30 s, capacity 100, Flour 50 kg and Sugar 20 kg
per 100-piece run, generic loading rate 10 kg/s) the spec and the repository's
own test assert a total of 334.0 s.  The code instead returns 136.0 s: it
charges producing time per batch repetition (2 × 1 s), not per produced unit
(200 × 1 s). -/
theorem cookie_scenario_total_time :
    evaluate_recipe_time oven "Cookie" 200 = some 136 ∧
    evaluate_recipe_time oven "Cookie" 200 ≠ some 334 := by
  have h : evaluate_recipe_time oven "Cookie" 200 = some 136 := by
    norm_num [evaluate_recipe_time, Machine.get_setting_for_recipe_from_name,
      Machine.get_loading_rate, oven, cookieSetting, cookie, flour, sugar, List.find?,
      pyCeil_eq_ceil]
  refine ⟨h, ?_⟩
  rw [h]
  intro hc
  injection hc with hc
  norm_num at hc

/-! ### Claim C9 -/

/-- Claim C9: calling the assignment optimizer with an empty candidate
collection returns an empty selection, for every possible solver outcome (the
solver is never consulted), and without any error. -/
theorem optimize_assignment_nil (sol : Option (String → String → Bool)) :
    optimize_assignment [] sol = [] := rfl

/-! ### Claim C10 -/

/-- Claim C10: for every machine whose power profile was built by
`PowerProfile.__init__` (as `Machine.__init__` always does) and every
state-durations map keyed by the strings idle/load/produce, `Machine.energy_use`
returns 0, because the profile dictionary is keyed by `MachinePowerProfile`
enum members while the lookup uses string keys and defaults the factor to 0. -/
theorem energy_use_string_keys_zero (m0 : Machine)
    (prof : Option (List (MachinePowerProfile × ℚ)))
    (hm : m0.power_profile = PowerProfile.init prof) (a b c : ℚ) :
    m0.energy_use [("idle", a), ("load", b), ("produce", c)] = 0 := by
  unfold Machine.energy_use
  rw [hm]
  simp only [List.map_cons, List.map_nil, List.sum_cons, List.sum_nil,
    dictGet_strK_eq_default _ (powerProfile_init_keys prof)]
  ring

/-- Witness for C10: the Kiln machine (idle factor 3 configured) still reports
zero energy for string-keyed durations. -/
theorem energy_use_string_keys_zero_witness :
    kiln.energy_use [("idle", 1), ("load", 2), ("produce", 3)] = 0 :=
  energy_use_string_keys_zero kiln (some [(MachinePowerProfile.IDLE, 3)]) rfl 1 2 3

/-! ### Claim C6 -/

/-- Counterexample to C6: a machine with no configured loading rates gives a
loading time of 0 for a positive quantity of Flour — the fallback rate is 0.0,
not a conservative non-zero default. -/
theorem loading_time_zero_default :
    bareMill.loading_time 5 flour = 0 ∧ (0 : ℚ) < 5 := by
  constructor
  · norm_num [Machine.loading_time, bareMill, flour, List.find?]
  · norm_num

/-- Claim C6 (amended): `Machine.loading_time` resolves the rate by exact
material name first, else by the material's unit of measure; when neither is
present the rate defaults to 0.0, so the loading time is 0 regardless of the
quantity. -/
theorem loading_time_tiered (m : Machine) (q : ℚ) (mat : RawMaterial) :
    (∀ lr, m.loading_rates.by_material.find? (fun p => decide (p.1 = mat.name)) = some lr →
      m.loading_time q mat = q * lr.2.rate) ∧
    (m.loading_rates.by_material.find? (fun p => decide (p.1 = mat.name)) = none →
      ∀ lr, m.loading_rates.by_unit.find? (fun p => decide (p.1 = mat.unit)) = some lr →
        m.loading_time q mat = q * lr.2.rate) ∧
    (m.loading_rates.by_material.find? (fun p => decide (p.1 = mat.name)) = none →
      m.loading_rates.by_unit.find? (fun p => decide (p.1 = mat.unit)) = none →
      m.loading_time q mat = 0) := by
  refine ⟨?_, ?_, ?_⟩
  · intro lr h1
    unfold Machine.loading_time
    rw [h1]
  · intro h1 lr h2
    unfold Machine.loading_time
    rw [h1, h2]
  · intro h1 h2
    unfold Machine.loading_time
    rw [h1, h2]
    exact mul_zero q

/-- Witness for C6: on a machine with both a Flour-specific rate (7) and a
generic kilogram rate (4), the material-specific rate wins. -/
theorem loading_time_tiered_witness : rateMill.loading_time 2 flour = 2 * 7 :=
  (loading_time_tiered rateMill 2 flour).1
    ("Flour", { rate := 7, quant := Unit'.KILOGRAM, over_quant := Unit'.SECONDS })
    (by norm_num [rateMill, flour, List.find?])

/-! ### Claim C3 -/

/-- Counterexample to C3: for the Kiln/Brick candidate (idle time 3600 s,
nominal power 2 kW, idle factor 3, energy factor 5) the reported idle-state
energy is 21600 — not the 6 kWh that the claimed formula (time × power ×
factor ÷ 3600) yields — and the reported total is the plain sum 21622, not the
claimed converted sum times the energy factor. -/
theorem candidate_energy_not_converted :
    (ProductionTaskCandidate.init kiln brick 1).map (fun c => c.energy_idle) = some 21600 ∧
    (ProductionTaskCandidate.init kiln brick 1).map (fun c => c.idle_time) = some 3600 ∧
    (3600 * kiln.nominal_power_kw * profileFactor kiln MachinePowerProfile.IDLE) / 3600 ≠
      (21600 : ℚ) ∧
    (ProductionTaskCandidate.init kiln brick 1).map
      (fun c => c.total_energy_consumption) = some 21622 ∧
    ((3600 * 2 * 3) / 3600 + (10 * 2 * 1) / 3600 + (1 * 2 * 1) / 3600) *
      brickSetting.energy_factor ≠ (21622 : ℚ) := by
  refine ⟨?_, ?_, ?_, ?_, ?_⟩
  · norm_num [ProductionTaskCandidate.init, Machine.get_setting_for_recipe_from_name,
      Machine.get_loading_rate, kiln, brickSetting, brick, flour, List.find?,
      pyCeil_eq_ceil, dictGet, PowerProfile.init, allProfiles]
  · norm_num [ProductionTaskCandidate.init, Machine.get_setting_for_recipe_from_name,
      Machine.get_loading_rate, kiln, brickSetting, brick, flour, List.find?,
      pyCeil_eq_ceil, dictGet, PowerProfile.init, allProfiles]
  · norm_num [kiln, profileFactor, dictGet, PowerProfile.init, allProfiles, List.find?]
  · simp +decide only [ProductionTaskCandidate.init, Machine.get_setting_for_recipe_from_name,
      Machine.get_loading_rate, kiln, brickSetting, brick, flour, List.find?,
      dictGet, PowerProfile.init, allProfiles, List.filterMap, Option.map]
    norm_num [pyCeil_eq_ceil]
  · norm_num [brickSetting]

/-- Claim C3 (amended): for every constructed candidate, each per-state energy
figure equals the time spent in that state multiplied by the machine's nominal
power and that state's profile factor — with no seconds-to-hours conversion —
and the reported total is the plain sum of the three per-state figures, with
the setting's energy factor not applied. -/
theorem candidate_energy_formula (m : Machine) (r : Recipe) (q : ℚ) :
    (ProductionTaskCandidate.init m r q).map (fun c => c.energy_idle) =
      (ProductionTaskCandidate.init m r q).map (fun c =>
        c.idle_time * m.nominal_power_kw * profileFactor m MachinePowerProfile.IDLE) ∧
    (ProductionTaskCandidate.init m r q).map (fun c => c.energy_loading) =
      (ProductionTaskCandidate.init m r q).map (fun c =>
        c.loading_time * m.nominal_power_kw * profileFactor m MachinePowerProfile.LOADING) ∧
    (ProductionTaskCandidate.init m r q).map (fun c => c.energy_produce) =
      (ProductionTaskCandidate.init m r q).map (fun c =>
        c.producing_time * m.nominal_power_kw * profileFactor m MachinePowerProfile.PRODUCE) ∧
    (ProductionTaskCandidate.init m r q).map (fun c => c.total_energy_consumption) =
      (ProductionTaskCandidate.init m r q).map (fun c =>
        c.energy_idle + c.energy_loading + c.energy_produce) := by
  unfold ProductionTaskCandidate.init profileFactor
  cases m.get_setting_for_recipe_from_name r.name <;> simp

/-! ### Claim C2 -/

/-- Counterexample to C2: on the Press (8 working hours per day) the Slab
candidate's estimated time is 97601 s while idle + loading + producing is
40001 s — the constructor adds non-working-hours padding on top of the three
components. -/
theorem estimated_time_exceeds_sum :
    (ProductionTaskCandidate.init press slab 1).map
        (fun c => (c.estimated_time, c.idle_time + c.loading_time + c.producing_time)) =
      some ((97601 : ℚ), (40001 : ℚ)) ∧ (97601 : ℚ) ≠ 40001 := by
  constructor
  · have hceil : (⌈(40001 : ℚ) / 28800⌉ : ℤ) = 2 :=
      ceil_eval _ _ (by norm_num) (by norm_num)
    norm_num [ProductionTaskCandidate.init, Machine.get_setting_for_recipe_from_name,
      Machine.get_loading_rate, press, slabSetting, slab, flour, List.find?,
      pyCeil_eq_ceil, dictGet, PowerProfile.init, allProfiles, hceil]
  · norm_num

/-- Claim C2 (amended): for every valid (machine, setting, quantity) triple for
which a candidate is constructed, idle, loading and producing times are each
≥ 0, and the total estimated time equals their sum plus
(⌈(sum/3600)/max_working_hours_per_day⌉ − 1) · (24 − max_working_hours_per_day)
· 3600 seconds of non-working-day padding; in particular it equals the plain
sum whenever the machine works 24 hours per day. -/
theorem estimated_time_decomposition
    (m : Machine) (r : Recipe) (q : ℚ) (rs : MachineRecipeSetting)
    (c : ProductionTaskCandidate)
    (hs : m.get_setting_for_recipe_from_name r.name = some rs)
    (hc : ProductionTaskCandidate.init m r q = some c)
    (hq : 0 ≤ q) (hsetup : 0 ≤ rs.setup_time) (htime : 0 ≤ rs.time)
    (hunload : 0 ≤ rs.unload_time) (hyield : 0 < rs.yield_rate)
    (hcap : 0 < rs.capacity) (hout : 0 < r.output_quantity)
    (hing : ∀ p ∈ r.ingredients, 0 ≤ p.2)
    (hu : ∀ p ∈ m.loading_rates.by_unit, 0 < p.2.rate)
    (hmrate : ∀ p ∈ m.loading_rates.by_material, 0 < p.2.rate) :
    0 ≤ c.idle_time ∧ 0 ≤ c.loading_time ∧ 0 ≤ c.producing_time ∧
    c.estimated_time = c.idle_time + c.loading_time + c.producing_time +
      (((pyCeil ((c.idle_time + c.loading_time + c.producing_time) / 3600 /
          m.max_working_hours_per_day) : ℤ) : ℚ) - 1) *
        (24 - m.max_working_hours_per_day) * 3600 ∧
    (m.max_working_hours_per_day = 24 →
      c.estimated_time = c.idle_time + c.loading_time + c.producing_time) := by
  simp only [ProductionTaskCandidate.init, hs, Option.some.injEq] at hc
  subst hc
  dsimp only
  have hA0 : (0 : ℚ) ≤
      (if r.output_unit = Unit'.PIECE then ((pyCeil (q / rs.yield_rate) : ℤ) : ℚ)
       else q / rs.yield_rate) := by
    split
    · exact pyCeil_cast_nonneg (div_nonneg hq hyield.le)
    · exact div_nonneg hq hyield.le
  have hmt0 : (0 : ℚ) ≤ ((pyCeil
      ((if r.output_unit = Unit'.PIECE then ((pyCeil (q / rs.yield_rate) : ℤ) : ℚ)
        else q / rs.yield_rate) / r.output_quantity) : ℤ) : ℚ) :=
    pyCeil_cast_nonneg (div_nonneg hA0 hout.le)
  have hcnt0 : (0 : ℚ) ≤ ((pyCeil
      ((if r.output_unit = Unit'.PIECE then ((pyCeil (q / rs.yield_rate) : ℤ) : ℚ)
        else q / rs.yield_rate) / rs.capacity) : ℤ) : ℚ) :=
    pyCeil_cast_nonneg (div_nonneg hA0 hcap.le)
  refine ⟨?_, ?_, ?_, ?_, ?_⟩
  · exact add_nonneg hsetup (mul_nonneg hcnt0 hunload)
  · apply List.sum_nonneg
    intro x hx
    obtain ⟨p, hp, rfl⟩ := List.mem_map.1 hx
    exact div_nonneg (mul_nonneg (hing p hp) hmt0)
      (get_loading_rate_pos m p.1 hu hmrate).le
  · exact mul_nonneg hmt0 htime
  · ring
  · intro h24
    rw [h24]
    ring

/-- Witness for C2: the Press/Slab candidate satisfies the amended
decomposition. -/
theorem estimated_time_decomposition_witness :
    0 ≤ slabCand.idle_time ∧ 0 ≤ slabCand.loading_time ∧ 0 ≤ slabCand.producing_time ∧
    slabCand.estimated_time = slabCand.idle_time + slabCand.loading_time +
      slabCand.producing_time +
      (((pyCeil ((slabCand.idle_time + slabCand.loading_time + slabCand.producing_time) /
          3600 / press.max_working_hours_per_day) : ℤ) : ℚ) - 1) *
        (24 - press.max_working_hours_per_day) * 3600 ∧
    (press.max_working_hours_per_day = 24 →
      slabCand.estimated_time = slabCand.idle_time + slabCand.loading_time +
        slabCand.producing_time) := by
  have hceil : (⌈(40001 : ℚ) / 28800⌉ : ℤ) = 2 :=
    ceil_eval _ _ (by norm_num) (by norm_num)
  exact estimated_time_decomposition press slab 1 slabSetting slabCand
    (by norm_num [Machine.get_setting_for_recipe_from_name, press, slabSetting, List.find?])
    (by simp +decide only [ProductionTaskCandidate.init, Machine.get_setting_for_recipe_from_name,
        Machine.get_loading_rate, press, slabSetting, slab, slabCand, flour, List.find?,
        dictGet, PowerProfile.init, allProfiles, List.filterMap, Option.map]
        norm_num [pyCeil_eq_ceil, hceil])
    (by norm_num) (by norm_num [slabSetting]) (by norm_num [slabSetting])
    (by norm_num [slabSetting]) (by norm_num [slabSetting]) (by norm_num [slabSetting])
    (by norm_num [slab])
    (by intro p hp; simp [slab, flour] at hp; rw [hp]; norm_num)
    (by intro p hp; simp [press] at hp; rw [hp]; norm_num)
    (by intro p hp; simp [press] at hp)

/-! ### Claim C8 -/

/-- Claim C8: for every requested quantity and setting with yield rate in
(0, 1], the derived actual quantity is requested ÷ yield, rounded up to an
integer when the recipe's output unit is the discrete piece unit (so it is an
integer ≥ requested ÷ yield, never truncated downward) and exactly
requested ÷ yield otherwise. -/
theorem actual_quantity_ceiling
    (m : Machine) (r : Recipe) (q : ℚ) (rs : MachineRecipeSetting)
    (hs : m.get_setting_for_recipe_from_name r.name = some rs)
    (hy0 : 0 < rs.yield_rate) (hy1 : rs.yield_rate ≤ 1) :
    (r.output_unit = Unit'.PIECE →
      ∃ n : ℤ, (ProductionTaskCandidate.init m r q).map (fun c => c.actual_quantity) =
          some ((n : ℤ) : ℚ) ∧ q / rs.yield_rate ≤ ((n : ℤ) : ℚ)) ∧
    (r.output_unit ≠ Unit'.PIECE →
      (ProductionTaskCandidate.init m r q).map (fun c => c.actual_quantity) =
        some (q / rs.yield_rate)) := by
  constructor
  · intro hpu
    refine ⟨pyCeil (q / rs.yield_rate), ?_, le_pyCeil_cast _⟩
    simp [ProductionTaskCandidate.init, hs, hpu]
  · intro hpu
    simp [ProductionTaskCandidate.init, hs, hpu]

/-- Witness for C8: the Oven/Cookie candidate at 200 requested pieces has an
integral actual quantity that is at least 200 ÷ 1. -/
theorem actual_quantity_ceiling_witness :
    ∃ n : ℤ, (ProductionTaskCandidate.init oven cookie 200).map
        (fun c => c.actual_quantity) = some ((n : ℤ) : ℚ) ∧
      (200 : ℚ) / cookieSetting.yield_rate ≤ ((n : ℤ) : ℚ) :=
  (actual_quantity_ceiling oven cookie 200 cookieSetting
    (by norm_num [Machine.get_setting_for_recipe_from_name, oven, cookieSetting, List.find?])
    (by norm_num [cookieSetting]) (by norm_num [cookieSetting])).1 rfl

/-! ### Claim C5 -/

/-- The planner's error log contains exactly the names of the grouped recipes
supported by no machine. -/
theorem create_candidates_errors (grouped : List (Recipe × ℚ)) (machines : List Machine) :
    (create_candidates grouped machines).2 =
      (grouped.filter (fun p => machines.all (fun m =>
        (m.get_setting_for_recipe_from_name p.1.name).isNone))).map (fun p => p.1.name) := by
  induction grouped with
  | nil => rfl
  | cons hd tl ih =>
    obtain ⟨r, q⟩ := hd
    simp only [create_candidates, List.filter_cons]
    by_cases hall : machines.all (fun m =>
        (m.get_setting_for_recipe_from_name r.name).isNone) = true
    · have hcs : machines.filterMap (fun m => ProductionTaskCandidate.init m r q) = [] := by
        rw [List.filterMap_eq_nil]
        intro m hm
        exact init_eq_none m r q (Option.isNone_iff_eq_none.1 (List.all_eq_true.1 hall m hm))
      rw [hcs]
      simp [hall, ih]
    · rw [List.all_eq_true] at hall
      push_neg at hall
      obtain ⟨m, hm, hne⟩ := hall
      have hsome : (ProductionTaskCandidate.init m r q).isSome = true := by
        rw [init_isSome_eq]
        cases h : m.get_setting_for_recipe_from_name r.name with
        | none => exact absurd (by rw [h]; rfl) hne
        | some _ => rfl
      obtain ⟨c, hc⟩ := Option.isSome_iff_exists.1 hsome
      have hmem : c ∈ machines.filterMap (fun mm => ProductionTaskCandidate.init mm r q) :=
        List.mem_filterMap.2 ⟨m, hm, hc⟩
      have hlen : ¬((machines.filterMap
          (fun mm => ProductionTaskCandidate.init mm r q)).length = 0) := by
        intro h0
        rw [List.length_eq_zero] at h0
        rw [h0] at hmem
        exact List.not_mem_nil c hmem
      have hnall : ¬(machines.all (fun mm =>
          (mm.get_setting_for_recipe_from_name r.name).isNone) = true) := by
        rw [List.all_eq_true]
        push_neg
        exact ⟨m, hm, hne⟩
      rw [if_neg hlen, if_neg hnall]
      simp [ih]

/-- Every generated candidate arises from a grouped entry and a machine via
the candidate constructor. -/
theorem create_candidates_mem (c : ProductionTaskCandidate) (grouped : List (Recipe × ℚ))
    (machines : List Machine) (hc : c ∈ (create_candidates grouped machines).1) :
    ∃ p ∈ grouped, ∃ m ∈ machines, ProductionTaskCandidate.init m p.1 p.2 = some c := by
  induction grouped with
  | nil => simp [create_candidates] at hc
  | cons hd tl ih =>
    simp only [create_candidates, List.mem_append] at hc
    rcases hc with h | h
    · obtain ⟨m, hm, hinit⟩ := List.mem_filterMap.1 h
      exact ⟨hd, by simp, m, hm, hinit⟩
    · obtain ⟨p, hp, m, hm, hi⟩ := ih h
      exact ⟨p, by simp [hp], m, hm, hi⟩

/-- Claim C5: a grouped recipe supported by no machine contributes zero
candidates — its name never appears among the generated candidates — and its
name is reported in the unproducible-recipes error log, distinguishing it from
successfully planned recipes. -/
theorem unsupported_recipe_unproducible
    (grouped : List (Recipe × ℚ)) (machines : List Machine) (r : Recipe) (q : ℚ)
    (hmem : (r, q) ∈ grouped)
    (hunsup : ∀ m ∈ machines, m.get_setting_for_recipe_from_name r.name = none)
    (hnodup : (grouped.map (fun p => p.1.name)).Nodup) :
    r.name ∈ (create_candidates grouped machines).2 ∧
    ∀ c ∈ (create_candidates grouped machines).1, c.recipe.name ≠ r.name := by
  constructor
  · rw [create_candidates_errors]
    apply List.mem_map.2
    refine ⟨(r, q), List.mem_filter.2 ⟨hmem, ?_⟩, rfl⟩
    rw [List.all_eq_true]
    intro m hm
    rw [hunsup m hm]
    rfl
  · intro c hc hname
    obtain ⟨p, hp, m, hm, hi⟩ := create_candidates_mem c grouped machines hc
    have hrec : c.recipe = p.1 := recipe_of_init m p.1 p.2 c hi
    have hpname : p.1.name = r.name := by rw [← hrec]; exact hname
    have hpe : p = (r, q) :=
      List.inj_on_of_nodup_map hnodup hp hmem hpname
    rw [hpe] at hi
    rw [init_eq_none m r q (hunsup m hm)] at hi
    cases hi

/-- Witness for C5: with demand for Cookie and Orphan and only the Oven (which
supports Cookie alone), Orphan is reported unproducible. -/
theorem unsupported_recipe_unproducible_witness :
    "Orphan" ∈ (create_candidates [(cookie, 200), (orphan, 5)] [oven]).2 :=
  (unsupported_recipe_unproducible [(cookie, 200), (orphan, 5)] [oven] orphan 5
    (by simp)
    (by
      intro m hm
      simp only [List.mem_singleton] at hm
      subst hm
      simp +decide only [Machine.get_setting_for_recipe_from_name, oven, cookieSetting,
        cookie, orphan, List.find?])
    (by simp [cookie, orphan])).1

/-! ### Optimizer lemmas (claims C4 and C7) -/

/-- The head of a list is a member. -/
theorem mem_of_head?_eq_some {α : Type} {l : List α} {c : α} (h : l.head? = some c) :
    c ∈ l := by
  cases l with
  | nil => cases h
  | cons a t =>
    injection h with h
    rw [← h]
    exact List.mem_cons_self _ _

/-- The left fold implementing Python `min(…, key=estimated_time)` returns an
element of `a :: rest` whose estimated time is minimal. -/
theorem foldl_minBy_spec (rest : List ProductionTaskCandidate) :
    ∀ a : ProductionTaskCandidate,
      (List.foldl (fun acc d => if d.estimated_time < acc.estimated_time then d else acc)
          a rest = a ∨
        List.foldl (fun acc d => if d.estimated_time < acc.estimated_time then d else acc)
          a rest ∈ rest) ∧
      (List.foldl (fun acc d => if d.estimated_time < acc.estimated_time then d else acc)
          a rest).estimated_time ≤ a.estimated_time ∧
      ∀ d ∈ rest,
        (List.foldl (fun acc d => if d.estimated_time < acc.estimated_time then d else acc)
          a rest).estimated_time ≤ d.estimated_time := by
  induction rest with
  | nil =>
    intro a
    refine ⟨Or.inl rfl, le_refl _, ?_⟩
    intro d hd
    cases hd
  | cons d rest ih =>
    intro a
    rw [List.foldl_cons]
    obtain ⟨hmem, hle, hall⟩ := ih (if d.estimated_time < a.estimated_time then d else a)
    have hle_a : (if d.estimated_time < a.estimated_time then d else a).estimated_time ≤
        a.estimated_time := by
      split
      next h => exact le_of_lt h
      next h => exact le_refl _
    have hle_d : (if d.estimated_time < a.estimated_time then d else a).estimated_time ≤
        d.estimated_time := by
      split
      next h => exact le_refl _
      next h => exact le_of_not_lt h
    refine ⟨?_, le_trans hle hle_a, ?_⟩
    · rcases hmem with h | h
      · rw [h]
        split
        next => exact Or.inr (List.mem_cons_self _ _)
        next => exact Or.inl rfl
      · exact Or.inr (List.mem_cons_of_mem _ h)
    · intro e he
      rcases List.mem_cons.1 he with he' | he'
      · rw [he']
        exact le_trans hle hle_d
      · exact hall e he'

/-- `minByTime` returns a member of the list of minimal estimated time. -/
theorem minByTime_spec (l : List ProductionTaskCandidate) (c : ProductionTaskCandidate)
    (h : minByTime l = some c) :
    c ∈ l ∧ ∀ d ∈ l, c.estimated_time ≤ d.estimated_time := by
  cases l with
  | nil => cases h
  | cons a rest =>
    simp only [minByTime, Option.some.injEq] at h
    subst h
    obtain ⟨hmem, hle, hall⟩ := foldl_minBy_spec rest a
    constructor
    · rcases hmem with h | h
      · rw [h]
        exact List.mem_cons_self _ _
      · exact List.mem_cons_of_mem _ h
    · intro d hd
      rcases List.mem_cons.1 hd with hd' | hd'
      · rw [hd']
        exact hle
      · exact hall d hd'

/-- Selecting one candidate per duplicate-free name list yields exactly one
selected candidate per name. -/
theorem filterMap_count_one (g : String → Option ProductionTaskCandidate)
    (hname : ∀ rn c, g rn = some c → c.recipe.name = rn) :
    ∀ names : List String, names.Nodup → (∀ rn ∈ names, (g rn).isSome = true) →
    ∀ rn ∈ names,
      ((names.filterMap g).filter (fun c => decide (c.recipe.name = rn))).length = 1 := by
  intro names
  induction names with
  | nil =>
    intro _ _ rn h
    cases h
  | cons hd tl ih =>
    intro hnd ht rn hrn
    obtain ⟨c0, hc0⟩ := Option.isSome_iff_exists.1 (ht hd (List.mem_cons_self _ _))
    have hfm : (hd :: tl).filterMap g = c0 :: tl.filterMap g := by
      rw [List.filterMap_cons, hc0]
    have hdnotin : hd ∉ tl := (List.nodup_cons.1 hnd).1
    have htlnd : tl.Nodup := (List.nodup_cons.1 hnd).2
    have hc0n : c0.recipe.name = hd := hname hd c0 hc0
    rw [hfm]
    rcases List.mem_cons.1 hrn with he | hrt
    · subst he
      rw [List.filter_cons, if_pos (by simp [hc0n])]
      have hrest : (tl.filterMap g).filter (fun c => decide (c.recipe.name = rn)) = [] := by
        rw [List.filter_eq_nil]
        intro c hcm
        obtain ⟨rn', hrn', hg⟩ := List.mem_filterMap.1 hcm
        have hcn := hname rn' c hg
        simp only [decide_eq_true_eq]
        rw [hcn]
        intro he2
        exact hdnotin (he2 ▸ hrn')
      rw [hrest]
      rfl
    · have hne : ¬(c0.recipe.name = rn) := by
        rw [hc0n]
        intro he2
        exact hdnotin (he2 ▸ hrt)
      rw [List.filter_cons, if_neg (by simp [hne])]
      exact ih htlnd (fun rn' h' => ht rn' (List.mem_cons_of_mem _ h')) rn hrt

/-- Unfolding of the greedy-fallback branch of the optimizer. -/
theorem optimize_none_eq (cs : List ProductionTaskCandidate) (hne : cs ≠ []) :
    optimize_assignment cs none = (recipeNamesOf cs).filterMap
      (fun rn => minByTime (cs.filter (fun c => decide (c.recipe.name = rn)))) := by
  unfold optimize_assignment
  rw [if_neg (by simpa [List.isEmpty_iff] using hne)]
  unfold groupByRecipe
  rw [List.filterMap_map]
  rfl

/-- Unfolding of the optimal-extraction branch of the optimizer. -/
theorem optimize_some_eq (cs : List ProductionTaskCandidate) (sol : String → String → Bool)
    (hne : cs ≠ []) :
    optimize_assignment cs (some sol) = (recipeNamesOf cs).filterMap
      (fun rn => ((cs.filter (fun c => decide (c.recipe.name = rn))).filter
        (fun c => sol rn c.machine.name)).head?) := by
  unfold optimize_assignment extractSelected
  rw [if_neg (by simpa [List.isEmpty_iff] using hne)]
  unfold groupByRecipe
  simp only [List.filterMap_map]
  rfl

/-! ### Claim C7 -/

/-- Claim C7: when the solver does not report an optimal solution, the
optimizer returns, per recipe, a candidate of minimal estimated time among
that recipe's candidates — exactly one selected candidate per recipe of the
input. -/
theorem greedy_fallback_per_recipe (cs : List ProductionTaskCandidate) (hne : cs ≠ []) :
    (∀ rn ∈ recipeNamesOf cs,
      ((optimize_assignment cs none).filter (fun c => decide (c.recipe.name = rn))).length = 1) ∧
    ∀ c ∈ optimize_assignment cs none, c ∈ cs ∧
      ∀ d ∈ cs, d.recipe.name = c.recipe.name → c.estimated_time ≤ d.estimated_time := by
  rw [optimize_none_eq cs hne]
  have hname : ∀ rn c,
      minByTime (cs.filter (fun c' => decide (c'.recipe.name = rn))) = some c →
      c.recipe.name = rn := by
    intro rn c h
    have hm := (minByTime_spec _ c h).1
    simpa using (List.mem_filter.1 hm).2
  have ht : ∀ rn ∈ recipeNamesOf cs,
      (minByTime (cs.filter (fun c' => decide (c'.recipe.name = rn)))).isSome = true := by
    intro rn hrn
    obtain ⟨c, hc, he⟩ := List.mem_map.1 ((pyDictKeys_mem rn _).1 hrn)
    have hmemf : c ∈ cs.filter (fun c' => decide (c'.recipe.name = rn)) :=
      List.mem_filter.2 ⟨hc, by simp [he]⟩
    cases hfil : cs.filter (fun c' => decide (c'.recipe.name = rn)) with
    | nil => rw [hfil] at hmemf; cases hmemf
    | cons a t => simp [minByTime]
  constructor
  · exact filterMap_count_one _ hname (recipeNamesOf cs) (pyDictKeys_nodup _) ht
  · intro c hc
    obtain ⟨rn, hrn, hgc⟩ := List.mem_filterMap.1 hc
    obtain ⟨hmem, hmin⟩ := minByTime_spec _ c hgc
    have hcname : c.recipe.name = rn := hname rn c hgc
    refine ⟨(List.mem_filter.1 hmem).1, ?_⟩
    intro d hd hdn
    exact hmin d (List.mem_filter.2 ⟨hd, by simp [hdn, hcname]⟩)

/-- Witness for C7: on the three-candidate fixture with a failed solve, recipe
A gets exactly one selected candidate. -/
theorem greedy_fallback_per_recipe_witness :
    ((optimize_assignment csW none).filter
      (fun c => decide (c.recipe.name = "A"))).length = 1 :=
  (greedy_fallback_per_recipe csW (by simp [csW])).1 "A"
    (by simp +decide [recipeNamesOf, pyDictKeys, csW, mkPlainCand, rA, rB, m1, m2])

/-! ### Claim C4 -/

/-- A sum over a filtered list splits into the parts satisfying and violating
a second predicate. -/
theorem sum_split_filter (l : List ProductionTaskCandidate)
    (Q : ProductionTaskCandidate → Bool) (f : ProductionTaskCandidate → ℚ) :
    ((l.filter Q).map f).sum + ((l.filter (fun c => !Q c)).map f).sum = (l.map f).sum := by
  induction l with
  | nil => simp
  | cons a t ih =>
    by_cases hq : Q a = true
    · rw [List.filter_cons, if_pos hq, List.filter_cons,
        if_neg (by rw [hq]; simp)]
      simp only [List.map_cons, List.sum_cons]
      rw [← ih]
      ring
    · have hq' : Q a = false := by
        revert hq
        cases Q a <;> simp
      rw [List.filter_cons, if_neg hq, List.filter_cons,
        if_pos (by rw [hq']; simp)]
      simp only [List.map_cons, List.sum_cons]
      rw [← ih]
      ring

/-- Partitioning a filtered sum over candidates along a duplicate-free list of
names covering all recipe names. -/
theorem sum_filter_partition (P : ProductionTaskCandidate → Bool)
    (f : ProductionTaskCandidate → ℚ) :
    ∀ names : List String, names.Nodup →
    ∀ l : List ProductionTaskCandidate, (∀ c ∈ l, c.recipe.name ∈ names) →
    ((l.filter P).map f).sum =
      (names.map (fun rn =>
        (((l.filter (fun c => decide (c.recipe.name = rn))).filter P).map f).sum)).sum := by
  intro names
  induction names with
  | nil =>
    intro _ l hcov
    have hl : l = [] := by
      cases l with
      | nil => rfl
      | cons a t => exact absurd (hcov a (List.mem_cons_self _ _)) (List.not_mem_nil _)
    subst hl
    simp
  | cons rn rest ih =>
    intro hnd l hcov
    have hdnot : rn ∉ rest := (List.nodup_cons.1 hnd).1
    have hrestnd : rest.Nodup := (List.nodup_cons.1 hnd).2
    have hsplit := sum_split_filter (l.filter P)
      (fun c => decide (c.recipe.name = rn)) f
    have hcomm1 : (l.filter P).filter (fun c => decide (c.recipe.name = rn)) =
        (l.filter (fun c => decide (c.recipe.name = rn))).filter P := by
      rw [List.filter_filter, List.filter_filter]
      exact List.filter_congr (fun c _ => Bool.and_comm _ _)
    have hcomm2 : (l.filter P).filter (fun c => !decide (c.recipe.name = rn)) =
        (l.filter (fun c => !decide (c.recipe.name = rn))).filter P := by
      rw [List.filter_filter, List.filter_filter]
      exact List.filter_congr (fun c _ => Bool.and_comm _ _)
    have hcov2 : ∀ c ∈ l.filter (fun c => !decide (c.recipe.name = rn)),
        c.recipe.name ∈ rest := by
      intro c hc
      obtain ⟨hcl, hnb⟩ := List.mem_filter.1 hc
      rcases List.mem_cons.1 (hcov c hcl) with he | h
      · exfalso
        simp [he] at hnb
      · exact h
    have ihr := ih hrestnd (l.filter (fun c => !decide (c.recipe.name = rn))) hcov2
    have hterm : ∀ rn' ∈ rest,
        (l.filter (fun c => !decide (c.recipe.name = rn))).filter
          (fun c => decide (c.recipe.name = rn')) =
        l.filter (fun c => decide (c.recipe.name = rn')) := by
      intro rn' hrn'
      rw [List.filter_filter]
      apply List.filter_congr
      intro c _
      by_cases hcc : c.recipe.name = rn'
      · have hne' : ¬(rn' = rn) := fun he => hdnot (he ▸ hrn')
        simp [hcc, hne']
      · simp [hcc]
    rw [← hsplit, hcomm1, hcomm2, ihr, List.map_cons, List.sum_cons]
    congr 1
    apply congrArg
    apply List.map_congr_left
    intro rn' hrn'
    rw [hterm rn' hrn']

/-- A filtered sum over a per-name selection `filterMap` expands to a sum of
per-name contributions. -/
theorem sum_filterMap_names (names : List String)
    (g : String → Option ProductionTaskCandidate)
    (Q : ProductionTaskCandidate → Bool) (f : ProductionTaskCandidate → ℚ) :
    (((names.filterMap g).filter Q).map f).sum =
      (names.map (fun rn =>
        match g rn with
        | some c => if Q c then f c else 0
        | none => 0)).sum := by
  induction names with
  | nil => simp
  | cons rn rest ih =>
    rw [List.filterMap_cons]
    cases hg : g rn with
    | none =>
      simp only [List.map_cons, List.sum_cons, hg]
      rw [ih]
      ring
    | some c =>
      rw [List.filter_cons]
      cases hq : Q c with
      | false =>
        simp only [List.map_cons, List.sum_cons, hg, hq, Bool.false_eq_true, if_neg,
          not_false_eq_true]
        rw [ih]
        ring
      | true =>
        simp only [List.map_cons, List.sum_cons, hg, hq, if_pos, List.map_cons, List.sum_cons]
        rw [ih]

/-- Claim C4: whenever the solver solution satisfies the assignment constraints
(exactly one chosen machine per recipe) and the makespan constraints (each
machine's chosen total time at most `M`), the extracted plan selects exactly
one candidate per recipe and every machine's selected total time is at most
the reported makespan `M`. -/
theorem optimizer_assignment_invariant
    (cs : List ProductionTaskCandidate) (sol : String → String → Bool) (M : ℚ)
    (hA : ∀ p ∈ groupByRecipe cs,
      (p.2.filter (fun c => sol p.1 c.machine.name)).length = 1)
    (hB : ∀ mn ∈ machineNamesOf cs,
      ((cs.filter (fun c =>
        decide (c.machine.name = mn) && sol c.recipe.name c.machine.name)).map
        (fun c => c.estimated_time)).sum ≤ M) :
    (∀ rn ∈ recipeNamesOf cs,
      ((optimize_assignment cs (some sol)).filter
        (fun c => decide (c.recipe.name = rn))).length = 1) ∧
    ∀ mn ∈ machineNamesOf cs,
      (((optimize_assignment cs (some sol)).filter
        (fun c => decide (c.machine.name = mn))).map
        (fun c => c.estimated_time)).sum ≤ M := by
  by_cases hemp : cs = []
  · subst hemp
    constructor
    · intro rn hrn
      cases hrn
    · intro mn hmn
      cases hmn
  · rw [optimize_some_eq cs sol hemp]
    have hA' : ∀ rn ∈ recipeNamesOf cs,
        ∃ u, (cs.filter (fun c => decide (c.recipe.name = rn))).filter
          (fun c => sol rn c.machine.name) = [u] := by
      intro rn hrn
      exact List.length_eq_one.1 (hA (rn, cs.filter (fun c => decide (c.recipe.name = rn)))
        (List.mem_map.2 ⟨rn, hrn, rfl⟩))
    have hname : ∀ rn c,
        ((cs.filter (fun c' => decide (c'.recipe.name = rn))).filter
          (fun c' => sol rn c'.machine.name)).head? = some c →
        c.recipe.name = rn := by
      intro rn c h
      have hm := mem_of_head?_eq_some h
      have hm2 := (List.mem_filter.1 hm).1
      simpa using (List.mem_filter.1 hm2).2
    have ht : ∀ rn ∈ recipeNamesOf cs,
        (((cs.filter (fun c' => decide (c'.recipe.name = rn))).filter
          (fun c' => sol rn c'.machine.name)).head?).isSome = true := by
      intro rn hrn
      obtain ⟨u, hu⟩ := hA' rn hrn
      rw [hu]
      rfl
    constructor
    · exact filterMap_count_one _ hname (recipeNamesOf cs) (pyDictKeys_nodup _) ht
    · intro mn hmn
      have hcov : ∀ c ∈ cs, c.recipe.name ∈ recipeNamesOf cs := by
        intro c hc
        exact (pyDictKeys_mem _ _).2 (List.mem_map.2 ⟨c, hc, rfl⟩)
      have hBmn := hB mn hmn
      rw [sum_filter_partition
        (fun c => decide (c.machine.name = mn) && sol c.recipe.name c.machine.name)
        (fun c => c.estimated_time) (recipeNamesOf cs) (pyDictKeys_nodup _) cs hcov] at hBmn
      rw [sum_filterMap_names]
      have hpt : ∀ rn ∈ recipeNamesOf cs,
          (match ((cs.filter (fun c' => decide (c'.recipe.name = rn))).filter
              (fun c' => sol rn c'.machine.name)).head? with
           | some c => if decide (c.machine.name = mn) then c.estimated_time else 0
           | none => 0) =
          (((cs.filter (fun c => decide (c.recipe.name = rn))).filter (fun c =>
            decide (c.machine.name = mn) && sol c.recipe.name c.machine.name)).map
            (fun c => c.estimated_time)).sum := by
        intro rn hrn
        obtain ⟨u, hu⟩ := hA' rn hrn
        have hfe : (cs.filter (fun c => decide (c.recipe.name = rn))).filter
            (fun c => decide (c.machine.name = mn) && sol c.recipe.name c.machine.name) =
            ((cs.filter (fun c => decide (c.recipe.name = rn))).filter
              (fun c => sol rn c.machine.name)).filter
              (fun c => decide (c.machine.name = mn)) := by
          rw [List.filter_filter, List.filter_filter, List.filter_filter]
          apply List.filter_congr
          intro c _
          by_cases hcn : c.recipe.name = rn
          · simp [hcn, Bool.and_comm]
          · simp [hcn]
        rw [hfe, hu]
        by_cases hum : u.machine.name = mn
        · simp [hum]
        · simp [hum]
      rw [List.map_congr_left hpt]
      exact hBmn

/-- Witness for C4: on the three-candidate fixture with solution A→M2, B→M1
and makespan 150, machine M1's selected total time stays within 150. -/
theorem optimizer_assignment_invariant_witness :
    (((optimize_assignment csW (some solW)).filter
      (fun c => decide (c.machine.name = "M1"))).map
      (fun c => c.estimated_time)).sum ≤ 150 :=
  (optimizer_assignment_invariant csW solW 150
    (by
      intro p hp
      simp +decide [groupByRecipe, recipeNamesOf, pyDictKeys, csW, mkPlainCand, rA, rB,
        m1, m2, List.filter] at hp
      rcases hp with h | h <;> subst h <;>
        simp +decide [csW, mkPlainCand, rA, rB, m1, m2, solW, List.filter])
    (by
      intro mn hmn
      simp +decide [machineNamesOf, pyDictKeys, csW, mkPlainCand, rA, rB, m1, m2] at hmn
      rcases hmn with h | h <;> subst h <;>
        simp +decide [csW, mkPlainCand, rA, rB, m1, m2, solW, List.filter])).2 "M1"
    (by simp +decide [machineNamesOf, pyDictKeys, csW, mkPlainCand, rA, rB, m1, m2])

end FactoryMind
